import Mathlib

/-!
Verification of the certificate-verification and request-lifecycle core of the
icp-js-core repository against its natural-language specification.

The embedding below is shallow: byte strings are `List Nat`, wall-clock
instants are millisecond counts (`Int`), fallible operations return
`Except AgentError`.  Functions whose implementation is present in the
repository snapshot (`readState.ts`, `canisterStatus/index.ts`) are translated
from that source; functions whose implementation file is absent from the
snapshot (the HTTP agent, `transforms.ts`, `certificate.ts`, the polling
module) are modelled from the specification text, pinned where possible by the
repository's own test suites, and carry a doc comment saying so.
-/

/-- Error kinds of the agent error taxonomy (errors.ts is absent from the
snapshot; the kinds are those named by the spec §7 and used by the sources:
TrustError, ProtocolError, InputError, UnknownError). -/
inductive ErrorKind
  | trust
  | protocol
  | input
  | unknownKind
deriving DecidableEq

/-- Error codes appearing in the claims and in the sources under src/
(CertificateOutdatedErrorCode, CertificateNotAuthorizedErrorCode,
CertificateVerificationErrorCode, CertificateTimeErrorCode,
IngressExpiryInvalidErrorCode, LookupErrorCode, DerKeyLengthMismatchErrorCode,
HashTreeDecodeErrorCode; `otherCode` stands for any further code). -/
inductive ErrorCode
  | certificateOutdated
  | certificateNotAuthorized
  | certificateVerification
  | certificateTime
  | ingressExpiryInvalid
  | lookupFailure
  | derKeyLengthMismatch (expected : Nat) (actual : Nat)
  | hashTreeDecode
  | otherCode (tag : Nat)
deriving DecidableEq

/-- An agent error: a kind (the error class) together with its cause code. -/
structure AgentError where
  kind : ErrorKind
  code : ErrorCode
deriving DecidableEq

/-- Human-readable message of an error code, as asserted by the tests
(`err.message` contains this text for a stale certificate). -/
def errorMessage : ErrorCode → String
  | .certificateOutdated => "Certificate is stale"
  | _ => ""

/-! ## Expiry (C5 of the spec, transforms.ts)

The implementation file `transforms.ts` is not part of the snapshot (only its
test file is), so `expiryNs` is modelled from the specification pseudocode of
§4.5 and validated below against every concrete vector of
`transforms.test.ts`. -/

/-- Round a millisecond instant down to the nearest minute (floor division,
matching `Math.floor` on non-negative values and ediv in general). -/
def floorToMinuteMs (t : Int) : Int :=
  t / 60000 * 60000

/-- Round a millisecond instant down to the nearest second. -/
def floorToSecondMs (t : Int) : Int :=
  t / 1000 * 1000

/-- Modelled from the spec: `Expiry.fromDeltaInMilliseconds` of the absent
`transforms.ts`, i.e. the pure function `expiryNs(delta_ms, drift_ms)` of spec
§4.5, with the current wall clock passed explicitly.  The result is the
expiry in nanoseconds. -/
def expiryNs (nowMs deltaMs driftMs : Int) : Int :=
  let corrected := nowMs + driftMs
  let target := corrected + deltaMs
  if 60000 ≤ target - corrected ∧ 60000 ≤ floorToMinuteMs target - corrected then
    floorToMinuteMs target * 1000000
  else
    floorToSecondMs target * 1000000

/-- The rounding rule exactly as claim C3 words it: round down to the minute
whenever the minute boundary still lies at least 60 seconds after the
drift-corrected now, otherwise round down to the second. -/
def expiryNsClaimC3 (nowMs deltaMs driftMs : Int) : Int :=
  let corrected := nowMs + driftMs
  let target := corrected + deltaMs
  if 60000 ≤ floorToMinuteMs target - corrected then
    floorToMinuteMs target * 1000000
  else
    floorToSecondMs target * 1000000

/-- Vector from transforms.test.ts: a five-minute delta at
2021-04-26T17:47:11.314Z rounds down to 17:52:00.000Z. -/
theorem expiryNs_vector_minute :
    expiryNs 1619459231314 300000 0 = 1619459520000 * 1000000 := by
  decide

/-- Vector from transforms.test.ts: an 89 second delta rounds down to the
second (17:48:40.000Z). -/
theorem expiryNs_vector_second :
    expiryNs 1619459231314 89000 0 = 1619459320000 * 1000000 := by
  decide

/-- Vector from transforms.test.ts: a two-minute delta with 30 s positive
clock drift rounds down to the minute (17:49:00.000Z). -/
theorem expiryNs_vector_drift_minute :
    expiryNs 1619459231314 120000 30000 = 1619459340000 * 1000000 := by
  decide

/-- Vector from transforms.test.ts: a 90 s delta with 5 s drift falls below
the 60 s minute-threshold and rounds down to the second (17:48:46.000Z). -/
theorem expiryNs_vector_drift_second :
    expiryNs 1619459231314 90000 5000 = 1619459326000 * 1000000 := by
  decide

/-- Claim C2 (counterexample): the constructor can produce an expiry that is
already past at construction time.  With a zero delta and zero drift at
2021-04-26T17:47:11.314Z (the clock of transforms.test.ts, which pins exactly
this output) the expiry is the floor of now to the second, which is strictly
before now in nanoseconds. -/
theorem c2_expiry_can_be_past :
    expiryNs 1619459231314 0 0 < 1619459231314 * 1000000 := by
  decide

/-- Claim C2 (amended): rounding can step at most one second (resp. stay at
least 60 s ahead of the drift-corrected now in the minute branch), so whenever
the delta is at least one second and the drift correction is non-negative the
expiry is at least now in nanoseconds; the unqualified claim fails for
sub-second deltas or negative drift (see the counterexample). -/
theorem c2_expiry_not_past_amended (nowMs deltaMs driftMs : Int)
    (hdelta : 1000 ≤ deltaMs) (hdrift : 0 ≤ driftMs) :
    nowMs * 1000000 ≤ expiryNs nowMs deltaMs driftMs := by
  simp only [expiryNs, floorToMinuteMs, floorToSecondMs]
  split_ifs with h
  · rcases h with ⟨-, h2⟩
    omega
  · omega

/-- Witness for the amended claim C2 at the five-minute-delta vector of
transforms.test.ts. -/
theorem c2_expiry_not_past_amended_witness :
    (1000 : Int) ≤ 300000 ∧ (0 : Int) ≤ 0 ∧
      1619459231314 * 1000000 ≤ expiryNs 1619459231314 300000 0 :=
  ⟨by norm_num, le_refl 0,
    c2_expiry_not_past_amended 1619459231314 300000 0 (by norm_num) (le_refl 0)⟩

/-- Claim C3: `fromDeltaInMilliseconds` computes the drift-corrected target
and rounds it down to the nearest minute exactly when that minute boundary
still lies at least 60 seconds after the drift-corrected now, otherwise down
to the nearest second.  The extra guard `delta ≥ 60000` in the implementation
is redundant because the minute floor never exceeds the target. -/
theorem c3_expiry_rounding (nowMs deltaMs driftMs : Int) :
    expiryNs nowMs deltaMs driftMs = expiryNsClaimC3 nowMs deltaMs driftMs := by
  simp only [expiryNs, expiryNsClaimC3, floorToMinuteMs, floorToSecondMs]
  have hfloor : (nowMs + driftMs + deltaMs) / 60000 * 60000 ≤ nowMs + driftMs + deltaMs :=
    Int.ediv_mul_le _ (by norm_num)
  by_cases h2 : 60000 ≤ (nowMs + driftMs + deltaMs) / 60000 * 60000 - (nowMs + driftMs)
  · rw [if_pos h2, if_pos ⟨by omega, h2⟩]
  · rw [if_neg h2, if_neg (fun h => h2 h.2)]

/-! ## Certificate time freshness (C1)

The certificate and HTTP-agent implementation files are absent from the
snapshot.  The `/time` extraction is modelled from spec §4.4 step 6 (LEB128
nanosecond count, converted to milliseconds); the freshness verdict is pinned
by the repository's queryExpiry tests, which assert that a timestamp more
than the five-minute window behind the (drift-corrected) local clock fails
with a Trust error carrying CertificateOutdated and message
"Certificate is stale", while a timestamp six minutes ahead of the local
clock is accepted. -/

/-- Modelled from the spec: unsigned LEB128 decoding (decodeLeb128 of the
absent utils/leb.ts).  Each byte contributes seven low bits, least
significant group first; a byte below 128 terminates the encoding. -/
def lebDecode : List Nat → Option Nat
  | [] => none
  | b :: rest =>
    if b < 128 then
      match rest with
      | [] => some b
      | _ :: _ => none
    else
      match lebDecode rest with
      | some hi => some (b % 128 + 128 * hi)
      | none => none

/-- Modelled from the spec: decodeTime of the absent utils/leb.ts — the
`/time` leaf is a LEB128-encoded nanosecond count, converted to integral
milliseconds. -/
def decodeTimeMs (bytes : List Nat) : Option Nat :=
  match lebDecode bytes with
  | some ns => some (ns / 1000000)
  | none => none

/-- The default freshness window: five minutes in milliseconds. -/
def maxIngressExpiryMs : Int := 300000

/-- Modelled from the spec and pinned by the queryExpiry tests: the freshness
verdict on an embedded certificate/signature time (milliseconds).  The check
fails as a stale Trust error exactly when the drift-corrected local clock is
more than the budget ahead of the embedded time; embedded times ahead of the
local clock are not rejected. -/
def staleCheckMs (tMs : Int) (nowMs driftMs budgetMs : Int) : Except AgentError Unit :=
  if budgetMs < nowMs + driftMs - tMs then
    .error ⟨.trust, .certificateOutdated⟩
  else
    .ok ()

/-- Modelled from the spec and the queryExpiry tests: the complete time
verification of a certificate — extract `/time` as LEB128 nanoseconds,
convert to milliseconds, then apply the freshness check unless the caller
disabled time verification. -/
def certTimeVerdict (timeBytes : List Nat) (nowMs driftMs budgetMs : Int)
    (disableTimeVerification : Bool) : Except AgentError Unit :=
  match decodeTimeMs timeBytes with
  | none => .error ⟨.protocol, .lookupFailure⟩
  | some tMs =>
    if disableTimeVerification then .ok ()
    else staleCheckMs (tMs : Int) nowMs driftMs budgetMs

/-- Claim C1 (counterexample): a certificate time six minutes in the future
of the local clock is accepted, not rejected as FromFuture.  The byte list is
the LEB128 encoding of 2025-05-01T12:40:56.789Z in nanoseconds, the local
clock is 2025-05-01T12:34:56.789Z (the clock of the queryExpiry test titled
"should succeed if clock is drifted by more than 5 minutes in the future
without syncing it"), drift estimate zero, budget five minutes, freshness
checking enabled. -/
theorem c1_future_time_accepted :
    decodeTimeMs [192, 190, 190, 208, 146, 245, 217, 157, 24] = some 1746103256789 ∧
      1746102896789 + maxIngressExpiryMs < (1746103256789 : Int) ∧
      certTimeVerdict [192, 190, 190, 208, 146, 245, 217, 157, 24]
        1746102896789 0 maxIngressExpiryMs false = .ok () := by
  refine ⟨by decide, by decide, ?_⟩
  rfl

/-- Claim C1 (amended): certificate verification extracts `/time` as a LEB128
nanosecond count and, unless the caller disabled freshness checking, rejects
as a stale Trust error (code CertificateOutdated, message "Certificate is
stale") every certificate whose embedded time is more than the drift budget
behind the drift-corrected local clock; an embedded time at or ahead of the
drift-corrected clock minus the budget — in particular any time in the
future — is accepted, and disabling the check accepts everything. -/
theorem c1_time_freshness_amended (timeBytes : List Nat) (tMs : Nat)
    (nowMs driftMs budgetMs : Int)
    (hdec : decodeTimeMs timeBytes = some tMs) :
    certTimeVerdict timeBytes nowMs driftMs budgetMs true = .ok () ∧
      (budgetMs < nowMs + driftMs - (tMs : Int) →
        certTimeVerdict timeBytes nowMs driftMs budgetMs false =
          .error ⟨.trust, .certificateOutdated⟩ ∧
        errorMessage ErrorCode.certificateOutdated = "Certificate is stale") ∧
      (nowMs + driftMs - (tMs : Int) ≤ budgetMs →
        certTimeVerdict timeBytes nowMs driftMs budgetMs false = .ok ()) := by
  refine ⟨?_, ?_, ?_⟩
  · simp [certTimeVerdict, hdec]
  · intro h
    refine ⟨?_, rfl⟩
    simp [certTimeVerdict, hdec, staleCheckMs, h]
  · intro h
    simp [certTimeVerdict, hdec, staleCheckMs]
    omega

/-- Witness for the amended claim C1, at the stale vector of the queryExpiry
test "should fail if clock is drifted by more than 5 minutes in the past
without syncing it": embedded time 2025-05-01T12:28:56.789Z, local clock
2025-05-01T12:34:56.789Z. -/
theorem c1_time_freshness_amended_witness :
    certTimeVerdict [192, 254, 221, 181, 152, 224, 217, 157, 24]
        1746102896789 0 maxIngressExpiryMs false =
      .error ⟨.trust, .certificateOutdated⟩ :=
  ((c1_time_freshness_amended [192, 254, 221, 181, 152, 224, 217, 157, 24]
      1746102536789 1746102896789 0 maxIngressExpiryMs (by decide)).2.1
    (by decide)).1

/-! ## Query retry on stale signature timestamps (C4)

Modelled from spec §4.6 (retry policy: a CertificateOutdated verification
failure is retried through the normal retry counter, each retry rebuilding
the request) and pinned by the queryExpiry tests: each attempt issues one
query HTTP request, verifies the node-signature timestamp before the subnet
key fetch resolves, and on a stale verdict fails that attempt without a
read-state call ("Early promise failure stops these requests"). -/

/-- HTTP requests issued by a query call: query calls and read-state calls. -/
structure QueryStats where
  queryCalls : Nat
  readStateCalls : Nat
deriving DecidableEq

/-- Modelled from the spec: a single query attempt.  With signature
verification enabled the verified node-signature timestamp goes through the
freshness check before the subnet-key read-state resolves; a fresh timestamp
lets the attempt complete, performing the one key-fetch read-state. -/
def queryAttempt (tsMs nowMs driftMs budgetMs : Int) (verifySigs : Bool) :
    QueryStats × Except AgentError Unit :=
  if verifySigs then
    match staleCheckMs tsMs nowMs driftMs budgetMs with
    | .ok () => (⟨1, 1⟩, .ok ())
    | .error e => (⟨1, 0⟩, .error e)
  else
    (⟨1, 0⟩, .ok ())

/-- Modelled from the spec: the retry loop of the request engine, indexed by
the number of retries still allowed.  A failed attempt is re-issued while
retries remain; the replica returns the same signed response every time, as
in the queryExpiry retry test. -/
def queryLoop (tsMs nowMs driftMs budgetMs : Int) (verifySigs : Bool) :
    Nat → QueryStats × Except AgentError Unit
  | 0 => queryAttempt tsMs nowMs driftMs budgetMs verifySigs
  | n + 1 =>
    match queryAttempt tsMs nowMs driftMs budgetMs verifySigs with
    | (s, .ok ()) => (s, .ok ())
    | (s, .error _) =>
      match queryLoop tsMs nowMs driftMs budgetMs verifySigs n with
      | (s2, r) => (⟨s.queryCalls + s2.queryCalls, s.readStateCalls + s2.readStateCalls⟩, r)

/-- Modelled from the spec: a query call with `retryTimes` retries (default
three) performs the initial attempt plus up to `retryTimes` re-issues. -/
def queryCall (retryTimes : Nat) (tsMs nowMs driftMs budgetMs : Int)
    (verifySigs : Bool) : QueryStats × Except AgentError Unit :=
  queryLoop tsMs nowMs driftMs budgetMs verifySigs retryTimes

/-- Shape of the retry loop when every attempt sees a stale timestamp: each
attempt issues one query, none reaches the key fetch, and the stale Trust
error is surfaced after the last retry. -/
theorem queryLoop_stale_shape (retryTimes : Nat) (tsMs nowMs driftMs budgetMs : Int)
    (hstale : budgetMs < nowMs + driftMs - tsMs) :
    queryCall retryTimes tsMs nowMs driftMs budgetMs true =
      (⟨retryTimes + 1, 0⟩, .error ⟨.trust, .certificateOutdated⟩) := by
  have hatt : queryAttempt tsMs nowMs driftMs budgetMs true =
      (⟨1, 0⟩, .error ⟨.trust, .certificateOutdated⟩) := by
    simp [queryAttempt, staleCheckMs, hstale]
  unfold queryCall
  induction retryTimes with
  | zero => simpa [queryLoop] using hatt
  | succ n ih =>
    simp [queryLoop, hatt, ih]
    omega

/-- Claim C4: with signature verification enabled and the verified timestamp
more than the five-minute window behind the drift-corrected clock, the query
fails with a Trust error carrying CertificateOutdated ("Certificate is
stale") after exactly retryTimes + 1 query HTTP requests: exactly one query
call and zero read-state calls when retryTimes = 0, and four query calls
when retryTimes = 3. -/
theorem c4_stale_query_retry (retryTimes : Nat) (tsMs nowMs driftMs budgetMs : Int)
    (hstale : budgetMs < nowMs + driftMs - tsMs) :
    (queryCall retryTimes tsMs nowMs driftMs budgetMs true).1.queryCalls =
        retryTimes + 1 ∧
      (queryCall retryTimes tsMs nowMs driftMs budgetMs true).2 =
        .error ⟨.trust, .certificateOutdated⟩ ∧
      errorMessage ErrorCode.certificateOutdated = "Certificate is stale" ∧
      queryCall 0 tsMs nowMs driftMs budgetMs true =
        (⟨1, 0⟩, .error ⟨.trust, .certificateOutdated⟩) ∧
      (queryCall 3 tsMs nowMs driftMs budgetMs true).1.queryCalls = 4 := by
  have hgen := queryLoop_stale_shape retryTimes tsMs nowMs driftMs budgetMs hstale
  have h0 := queryLoop_stale_shape 0 tsMs nowMs driftMs budgetMs hstale
  have h3 := queryLoop_stale_shape 3 tsMs nowMs driftMs budgetMs hstale
  refine ⟨?_, ?_, rfl, h0, ?_⟩
  · rw [hgen]
  · rw [hgen]
  · rw [h3]

/-- Witness for claim C4 at the retry test's concrete data: retryTimes = 3,
timestamp 2025-05-01T12:34:56.789Z, local clock six minutes later, zero
drift: four query calls and the stale Trust failure. -/
theorem c4_stale_query_retry_witness :
    (queryCall 3 1746102896789 1746103256789 0 maxIngressExpiryMs true).1.queryCalls =
        4 ∧
      (queryCall 3 1746102896789 1746103256789 0 maxIngressExpiryMs true).2 =
        .error ⟨.trust, .certificateOutdated⟩ :=
  ⟨(c4_stale_query_retry 3 1746102896789 1746103256789 0 maxIngressExpiryMs
      (by decide)).1,
    (c4_stale_query_retry 3 1746102896789 1746103256789 0 maxIngressExpiryMs
      (by decide)).2.1⟩

/-! ## Time synchronisation (C7) and the ingress-expiry retry cycle (C6)

The HTTP-agent implementation is absent from the snapshot; the sync operation
is modelled from spec §4.8 (three read-state `/time` samples, median, drift
update, hasSyncedTime flag) and its observable counts are pinned by
syncTime.test.ts. -/

/-- The engine state that time synchronisation touches: the drift estimate,
the hasSyncedTime flag, and counters of the sync read-state requests and of
completed sync operations. -/
structure AgentState where
  driftMs : Int
  hasSynced : Bool
  syncReadStates : Nat
  syncCount : Nat
deriving DecidableEq

/-- A freshly created engine: zero drift, never synced. -/
def initialAgentState : AgentState :=
  ⟨0, false, 0, 0⟩

/-- Median of three clock samples. -/
def median3 (a b c : Int) : Int :=
  max (min a b) (min (max a b) c)

/-- Modelled from the spec: one time-sync operation (syncTime, or
syncTimeWithSubnet against an explicit subnet) — three read-state requests
for `/time`, drift set to the median sample minus the local clock, and the
hasSyncedTime flag raised. -/
def syncTimeModel (s : AgentState) (nowMs : Int) (samples : Int × Int × Int) :
    AgentState :=
  { driftMs := median3 samples.1 samples.2.1 samples.2.2 - nowMs,
    hasSynced := true,
    syncReadStates := s.syncReadStates + 3,
    syncCount := s.syncCount + 1 }

/-- Modelled from the spec: engine creation runs one sync exactly when
`shouldSyncTime` is set (default false). -/
def createAgent (shouldSyncTime : Bool) (nowMs : Int) (samples : Int × Int × Int) :
    AgentState :=
  if shouldSyncTime then syncTimeModel initialAgentState nowMs samples
  else initialAgentState

/-- Claim C7: a time sync — at creation with shouldSyncTime, or explicitly
via syncTime / syncTimeWithSubnet — issues exactly three read-state requests
and leaves hasSyncedTime true, while an agent created without shouldSyncTime
issues zero sync read-state requests and reports hasSyncedTime false. -/
theorem c7_sync_time_reads (nowMs : Int) (samples : Int × Int × Int) :
    (createAgent true nowMs samples).syncReadStates = 3 ∧
      (createAgent true nowMs samples).hasSynced = true ∧
      (createAgent false nowMs samples).syncReadStates = 0 ∧
      (createAgent false nowMs samples).hasSynced = false ∧
      (∀ s : AgentState, (syncTimeModel s nowMs samples).syncReadStates =
        s.syncReadStates + 3 ∧ (syncTimeModel s nowMs samples).hasSynced = true) := by
  refine ⟨rfl, rfl, rfl, rfl, fun s => ⟨rfl, rfl⟩⟩

/-- Replica verdicts on a submitted call, as classified by the engine: an
accepted submission, or HTTP 400 with an ingress_expiry range diagnostic. -/
inductive CallVerdict
  | accepted
  | badIngressExpiry
deriving DecidableEq

/-- Modelled from the spec §4.6: a 400 carrying an ingress_expiry range
diagnostic triggers one time sync and one full rebuild and resubmission;
after that cycle further 400s are surfaced as an Input error with code
IngressExpiryInvalid.  `responses` gives the replica verdict of each
successive submission; the result carries the final engine state, the number
of call attempts, and the outcome. -/
def submitCycle (responses : Nat → CallVerdict) (s : AgentState) (nowMs : Int)
    (samples : Int × Int × Int) : AgentState × Nat × Except AgentError Unit :=
  match responses 0 with
  | .accepted => (s, 1, .ok ())
  | .badIngressExpiry =>
    match responses 1 with
    | .accepted => (syncTimeModel s nowMs samples, 2, .ok ())
    | .badIngressExpiry =>
      (syncTimeModel s nowMs samples, 2, .error ⟨.input, .ingressExpiryInvalid⟩)

/-- Claim C6: when the first submission is rejected with the ingress_expiry
diagnostic the engine syncs exactly once (three sync read-state requests) and
resubmits exactly once; a second identical 400 causes no second sync and
surfaces as an Input error with code IngressExpiryInvalid after exactly two
call attempts, while a successful resubmission completes after the same
single sync. -/
theorem c6_ingress_expiry_sync_once (responses : Nat → CallVerdict) (nowMs : Int)
    (samples : Int × Int × Int)
    (h0 : responses 0 = .badIngressExpiry) :
    (responses 1 = .badIngressExpiry →
      submitCycle responses initialAgentState nowMs samples =
        (⟨median3 samples.1 samples.2.1 samples.2.2 - nowMs, true, 3, 1⟩, 2,
          .error ⟨.input, .ingressExpiryInvalid⟩)) ∧
      (responses 1 = .accepted →
        submitCycle responses initialAgentState nowMs samples =
          (⟨median3 samples.1 samples.2.1 samples.2.2 - nowMs, true, 3, 1⟩, 2,
            .ok ())) := by
  constructor
  · intro h1
    simp [submitCycle, h0, h1, syncTimeModel, initialAgentState]
  · intro h1
    simp [submitCycle, h0, h1, syncTimeModel, initialAgentState]

/-- Witness for claim C6 with every submission rejected (the double-400
scenario of syncTime.test.ts): one sync, two call attempts, three sync
read-state requests, IngressExpiryInvalid surfaced. -/
theorem c6_ingress_expiry_sync_once_witness :
    submitCycle (fun _ => .badIngressExpiry) initialAgentState 1746102896789
        (1746102536789, 1746102536789, 1746102536789) =
      (⟨1746102536789 - 1746102896789, true, 3, 1⟩, 2,
        .error ⟨.input, .ingressExpiryInvalid⟩) :=
  (c6_ingress_expiry_sync_once (fun _ => .badIngressExpiry) 1746102896789
      (1746102536789, 1746102536789, 1746102536789) rfl).1 rfl

/-! ## Polling strategy lifecycle (C8)

The polling module's implementation is absent from the snapshot (only its
test is).  Modelled from spec §4.6/§5: `pollForResponse` creates one fresh
default strategy object per call and invokes that same object once for every
non-terminal request status until the request reaches `replied` or
`rejected`.  Fresh instances are numbered by a counter threaded through the
calls, so that distinct calls receive distinct instances. -/

/-- Request status values observed while polling. -/
inductive PollStatus
  | processing
  | received
  | unknownStatus
  | replied
  | rejected
deriving DecidableEq

/-- Statuses that keep the poll loop running. -/
def nonTerminal : PollStatus → Bool
  | .processing => true
  | .received => true
  | .unknownStatus => true
  | .replied => false
  | .rejected => false

/-- One recorded invocation of a polling strategy: which strategy instance
was invoked, and for which request. -/
structure StrategyInvocation where
  strategyId : Nat
  requestId : Nat
deriving DecidableEq

/-- Modelled from the spec: the poll loop body — invoke the call's strategy
instance once per non-terminal status, stopping at the first terminal
status. -/
def pollRun (strategyId requestId : Nat) : List PollStatus → List StrategyInvocation
  | [] => []
  | st :: rest =>
    if nonTerminal st then ⟨strategyId, requestId⟩ :: pollRun strategyId requestId rest
    else []

/-- Modelled from the spec: `pollForResponse` — allocate one fresh default
strategy instance (the current counter value), run the poll loop with it, and
return the bumped counter together with the allocated instance and its
invocation trace. -/
def pollForResponse (counter requestId : Nat) (statuses : List PollStatus) :
    Nat × Nat × List StrategyInvocation :=
  (counter + 1, counter, pollRun counter requestId statuses)

/-- Two back-to-back calls on the same engine, each with default polling
options: the second call starts from the counter returned by the first. -/
def twoPollCalls (counter reqA reqB : Nat) (stA stB : List PollStatus) :
    (Nat × List StrategyInvocation) × (Nat × List StrategyInvocation) × Nat :=
  match pollForResponse counter reqA stA with
  | (c1, idA, trA) =>
    match pollForResponse c1 reqB stB with
    | (c2, idB, trB) => ((idA, trA), (idB, trB), c2)

/-- The invocation trace of the poll loop is one invocation of the call's own
strategy per leading non-terminal status. -/
theorem pollRun_eq_replicate (strategyId requestId : Nat) (statuses : List PollStatus) :
    pollRun strategyId requestId statuses =
      List.replicate (statuses.takeWhile nonTerminal).length
        ⟨strategyId, requestId⟩ := by
  induction statuses with
  | nil => rfl
  | cons st rest ih =>
    by_cases h : nonTerminal st
    · simp [pollRun, h, List.takeWhile_cons, List.replicate_succ, ih]
    · simp only [Bool.not_eq_true] at h
      simp [pollRun, h, List.takeWhile_cons]

/-- Claim C8: each poll sequence instantiates exactly one fresh default
strategy; two calls using default polling observe two distinct strategy
instances, each invoked only for its own request and exactly once per
non-terminal poll status, never shared between the calls. -/
theorem c8_fresh_strategy_per_call (counter reqA reqB : Nat)
    (stA stB : List PollStatus) :
    match twoPollCalls counter reqA reqB stA stB with
    | ((idA, trA), (idB, trB), c2) =>
      idA ≠ idB ∧
      c2 = counter + 2 ∧
      trA = List.replicate (stA.takeWhile nonTerminal).length ⟨idA, reqA⟩ ∧
      trB = List.replicate (stB.takeWhile nonTerminal).length ⟨idB, reqB⟩ ∧
      (∀ inv ∈ trA, inv.strategyId = idA ∧ inv.requestId = reqA) ∧
      (∀ inv ∈ trB, inv.strategyId = idB ∧ inv.requestId = reqB) := by
  simp only [twoPollCalls, pollForResponse]
  refine ⟨by omega, by trivial, pollRun_eq_replicate counter reqA stA,
    pollRun_eq_replicate (counter + 1) reqB stB, ?_, ?_⟩
  · intro inv hmem
    rw [pollRun_eq_replicate] at hmem
    rcases List.eq_of_mem_replicate hmem with rfl
    exact ⟨rfl, rfl⟩
  · intro inv hmem
    rw [pollRun_eq_replicate] at hmem
    rcases List.eq_of_mem_replicate hmem with rfl
    exact ⟨rfl, rfl⟩

/-! ## HashTree and certificate lookups (C1 of the spec, certificate.ts)

The hash-tree type and its lookup operations live in `certificate.ts`, which
is absent from the snapshot; they are modelled from spec §3 and §4.1 and from
the tree-building test utilities of the snapshot (tagged variants Empty,
Fork, Labeled, Leaf, Pruned). -/

/-- A hash tree: tagged variant with five cases; labels and leaf values are
byte strings. -/
inductive HashTree
  | empty : HashTree
  | fork : HashTree → HashTree → HashTree
  | labeled : List Nat → HashTree → HashTree
  | leaf : List Nat → HashTree
  | pruned : List Nat → HashTree
deriving DecidableEq

/-- Modelled from the spec: flatten_forks — the sequence of non-fork children
of a tree, left to right. -/
def flatten_forks : HashTree → List HashTree
  | .empty => []
  | .fork l r => flatten_forks l ++ flatten_forks r
  | .labeled l t => [.labeled l t]
  | .leaf v => [.leaf v]
  | .pruned h => [.pruned h]

/-- Modelled from the spec: find the subtree under the first matching label
among the flattened children ("traverses forks by the first matching
label"). -/
def find_label (label : List Nat) : List HashTree → Option HashTree
  | [] => none
  | .labeled l sub :: rest => if l = label then some sub else find_label label rest
  | _ :: rest => find_label label rest

/-- Whether a flattened child list contains a pruned node, i.e. whether an
absent label might have been hidden by pruning (spec §4.1: a pruned subtree
under a matching prefix yields Unknown rather than Absent). -/
def anyPrunedTop (ts : List HashTree) : Bool :=
  ts.any fun t =>
    match t with
    | .pruned _ => true
    | _ => false

/-- Result of a subtree lookup. -/
inductive SubtreeLookup
  | found : HashTree → SubtreeLookup
  | absent : SubtreeLookup
  | unknown : SubtreeLookup
deriving DecidableEq

/-- Modelled from the spec: lookup_subtree — descend through Labeled nodes
whose labels match the path segments; a missing label is Absent, or Unknown
when a pruned sibling could be hiding it. -/
def lookup_subtree : List (List Nat) → HashTree → SubtreeLookup
  | [], t => .found t
  | l :: rest, t =>
    match find_label l (flatten_forks t) with
    | some sub => lookup_subtree rest sub
    | none => if anyPrunedTop (flatten_forks t) then .unknown else .absent

/-- Result of a value lookup. -/
inductive PathLookup
  | found : List Nat → PathLookup
  | absent : PathLookup
  | unknown : PathLookup
  | errorResult : PathLookup
deriving DecidableEq

/-- Modelled from the spec: lookup_path — like lookup_subtree but the path
must end at a Leaf, whose bytes are returned; ending at a pruned node is
Unknown, ending anywhere else is an Error. -/
def lookup_path : List (List Nat) → HashTree → PathLookup
  | [], .leaf v => .found v
  | [], .pruned _ => .unknown
  | [], .empty => .errorResult
  | [], .fork _ _ => .errorResult
  | [], .labeled _ _ => .errorResult
  | l :: rest, t =>
    match find_label l (flatten_forks t) with
    | some sub => lookup_path rest sub
    | none => if anyPrunedTop (flatten_forks t) then .unknown else .absent

/-- A decoded certificate envelope; only the tree takes part in the node-key
lookup of readState.ts. -/
structure Cert where
  tree : HashTree
deriving DecidableEq

/-- ASCII bytes of the label "subnet". -/
def subnetLabel : List Nat := [115, 117, 98, 110, 101, 116]

/-- ASCII bytes of the label "node". -/
def nodeLabel : List Nat := [110, 111, 100, 101]

/-- ASCII bytes of the label "public_key". -/
def publicKeyLabel : List Nat := [112, 117, 98, 108, 105, 99, 95, 107, 101, 121]

/-- Insertion into the string-keyed map (JavaScript `Map.set`): replace the
value of an existing key in place, otherwise append the new entry. -/
def mapSet {α : Type} (m : List (String × α)) (k : String) (v : α) :
    List (String × α) :=
  if m.any fun p => p.1 == k then
    m.map fun p => if p.1 = k then (k, v) else p
  else
    m ++ [(k, v)]

/-- Lookup in the string-keyed map (JavaScript `Map.get`; `none` is
JavaScript `undefined`). -/
def mapGet {α : Type} (m : List (String × α)) (k : String) : Option α :=
  (m.find? fun p => p.1 == k).map fun p => p.2

/-- One iteration of the forEach loop of lookupNodeKeysFromCertificate
(readState.ts lines 175-192): read the node principal from the labelled
fork, look up its public_key leaf, enforce the 44-byte DER length, and store
the key under the principal's text form.  A non-labelled fork makes the
JavaScript loop throw while reading the label; that dynamic failure is
rendered here as an UnknownError with the HashTreeDecode code (the code the
source uses for an invalid node tree). -/
def nodeKeyStep (toText : List Nat → String) (m : List (String × List Nat)) :
    HashTree → Except AgentError (List (String × List Nat))
  | .labeled l sub =>
    match lookup_path [publicKeyLabel] sub with
    | .found v =>
      if v.length = 44 then .ok (mapSet m (toText l) v)
      else .error ⟨.protocol, .derKeyLengthMismatch 44 v.length⟩
    | _ => .error ⟨.protocol, .lookupFailure⟩
  | _ => .error ⟨.unknownKind, .hashTreeDecode⟩

/-- The forEach loop over the flattened node forks, threading the map and
stopping at the first thrown error. -/
def nodeKeysFold (toText : List Nat → String) (m : List (String × List Nat)) :
    List HashTree → Except AgentError (List (String × List Nat))
  | [] => .ok m
  | t :: rest =>
    match nodeKeyStep toText m t with
    | .ok m2 => nodeKeysFold toText m2 rest
    | .error e => .error e

/-- lookupNodeKeysFromCertificate of readState.ts (translated from the
source): look up the subtree at /subnet/(subnetId)/node, fail with a
ProtocolError when it is not found, then build the node-key map from the
flattened labelled forks.  `toText` is the principal text encoding
(Principal.from(...).toText() in the source). -/
def lookupNodeKeysFromCertificate (toText : List Nat → String)
    (certificate : Cert) (subnetId : List Nat) :
    Except AgentError (List (String × List Nat)) :=
  match lookup_subtree [subnetLabel, subnetId, nodeLabel] certificate.tree with
  | .found sub => nodeKeysFold toText [] (flatten_forks sub)
  | _ => .error ⟨.protocol, .lookupFailure⟩

/-- Setting a key that is not yet present appends the new entry. -/
theorem mapSet_of_fresh {α : Type} (m : List (String × α)) (k : String) (v : α)
    (h : ∀ p ∈ m, p.1 ≠ k) : mapSet m k v = m ++ [(k, v)] := by
  have hany : (m.any fun p => p.1 == k) = false := by
    rw [List.any_eq_false]
    intro p hp
    simpa using h p hp
  simp [mapSet, hany]

/-- On a labelled fork the forEach body can only throw ProtocolErrors (a
missing public_key or a DER length mismatch). -/
theorem nodeKeyStep_labeled_error (toText : List Nat → String)
    (m : List (String × List Nat)) (l : List Nat) (sub : HashTree) (e : AgentError)
    (h : nodeKeyStep toText m (.labeled l sub) = .error e) : e.kind = .protocol := by
  cases hl : lookup_path [publicKeyLabel] sub with
  | found v =>
    by_cases hv : v.length = 44
    · simp [nodeKeyStep, hl, hv] at h
    · simp [nodeKeyStep, hl, hv] at h
      subst h
      rfl
  | absent =>
    simp [nodeKeyStep, hl] at h
    subst h
    rfl
  | unknown =>
    simp [nodeKeyStep, hl] at h
    subst h
    rfl
  | errorResult =>
    simp [nodeKeyStep, hl] at h
    subst h
    rfl

/-- The forEach loop over well-formed labelled node forks with found, 44-byte
public keys and distinct fresh text keys appends one entry per fork. -/
theorem nodeKeysFold_ok (toText : List Nat → String)
    (nodes : List (List Nat × HashTree)) (pkfun : List Nat × HashTree → List Nat) :
    ∀ m : List (String × List Nat),
      (∀ p ∈ nodes,
        lookup_path [publicKeyLabel] p.2 = .found (pkfun p) ∧ (pkfun p).length = 44) →
      (nodes.map fun p => toText p.1).Nodup →
      (∀ p ∈ nodes, ∀ q ∈ m, q.1 ≠ toText p.1) →
      nodeKeysFold toText m (nodes.map fun p => HashTree.labeled p.1 p.2) =
        .ok (m ++ nodes.map fun p => (toText p.1, pkfun p)) := by
  induction nodes with
  | nil =>
    intro m _ _ _
    simp [nodeKeysFold]
  | cons p rest ih =>
    intro m hpk hnodup hfresh
    obtain ⟨hfound, hlen⟩ := hpk p (List.mem_cons_self p rest)
    have hstep : nodeKeyStep toText m (HashTree.labeled p.1 p.2) =
        .ok (mapSet m (toText p.1) (pkfun p)) := by
      simp [nodeKeyStep, hfound, hlen]
    have hset : mapSet m (toText p.1) (pkfun p) = m ++ [(toText p.1, pkfun p)] :=
      mapSet_of_fresh m (toText p.1) (pkfun p)
        (fun q hq => hfresh p (List.mem_cons_self p rest) q hq)
    rw [List.map_cons, List.nodup_cons] at hnodup
    have hfresh2 : ∀ a ∈ rest, ∀ q ∈ m ++ [(toText p.1, pkfun p)], q.1 ≠ toText a.1 := by
      intro a ha q hq
      rcases List.mem_append.mp hq with hq | hq
      · exact hfresh a (List.mem_cons_of_mem p ha) q hq
      · have hq2 : q = (toText p.1, pkfun p) := by simpa using hq
        rw [hq2]
        intro hcontra
        apply hnodup.1
        have hcontra2 : toText p.1 = toText a.1 := hcontra
        rw [hcontra2]
        exact List.mem_map_of_mem (fun x => toText x.1) ha
    have hrest := ih (m ++ [(toText p.1, pkfun p)])
      (fun a ha => hpk a (List.mem_cons_of_mem p ha)) hnodup.2 hfresh2
    simp only [List.map_cons, nodeKeysFold, hstep, hset, hrest]
    simp

/-- If every node fork is labelled but some fork lacks a found public_key or
holds one of the wrong length, the forEach loop throws a ProtocolError. -/
theorem nodeKeysFold_protocol_error (toText : List Nat → String)
    (nodes : List (List Nat × HashTree)) :
    ∀ m : List (String × List Nat),
      (∃ p ∈ nodes,
        (∀ v, lookup_path [publicKeyLabel] p.2 ≠ .found v) ∨
          (∃ v, lookup_path [publicKeyLabel] p.2 = .found v ∧ v.length ≠ 44)) →
      ∃ e, nodeKeysFold toText m (nodes.map fun p => HashTree.labeled p.1 p.2) =
        .error e ∧ e.kind = .protocol := by
  induction nodes with
  | nil =>
    intro m hbad
    simp at hbad
  | cons p rest ih =>
    intro m hbad
    cases hstep : nodeKeyStep toText m (HashTree.labeled p.1 p.2) with
    | ok m2 =>
      rcases hbad with ⟨q, hq, hbadq⟩
      rcases List.mem_cons.mp hq with rfl | hq2
      · exfalso
        cases hl : lookup_path [publicKeyLabel] q.2 with
        | found v =>
          rcases hbadq with hnf | ⟨w, hw, hwlen⟩
          · exact hnf v hl
          · rw [hl] at hw
            cases hw
            simp [nodeKeyStep, hl, hwlen] at hstep
        | absent => simp [nodeKeyStep, hl] at hstep
        | unknown => simp [nodeKeyStep, hl] at hstep
        | errorResult => simp [nodeKeyStep, hl] at hstep
      · have hres := ih m2 ⟨q, hq2, hbadq⟩
        rcases hres with ⟨e, he, hkind⟩
        refine ⟨e, ?_, hkind⟩
        simp only [List.map_cons, nodeKeysFold, hstep]
        exact he
    | error e =>
      refine ⟨e, ?_, nodeKeyStep_labeled_error toText m p.1 p.2 e hstep⟩
      simp only [List.map_cons, nodeKeysFold, hstep]

/-- Claim C9: for every certificate and subnet id,
lookupNodeKeysFromCertificate returns one entry per node label under
/subnet/(subnetId)/node, mapping the node principal's text form to its
public_key leaf, with every returned key exactly 44 bytes of DER; it throws
a ProtocolError when the node subtree is not found, and when any labelled
fork lacks a found public_key or carries one whose byte length differs
from 44. -/
theorem c9_lookup_node_keys (toText : List Nat → String) (certificate : Cert)
    (subnetId : List Nat) :
    ((∀ t : HashTree,
        lookup_subtree [subnetLabel, subnetId, nodeLabel] certificate.tree ≠ .found t) →
      lookupNodeKeysFromCertificate toText certificate subnetId =
        .error ⟨.protocol, .lookupFailure⟩) ∧
      (∀ (sub : HashTree) (nodes : List (List Nat × HashTree))
          (pkfun : List Nat × HashTree → List Nat),
        lookup_subtree [subnetLabel, subnetId, nodeLabel] certificate.tree = .found sub →
        flatten_forks sub = (nodes.map fun p => HashTree.labeled p.1 p.2) →
        (∀ p ∈ nodes,
          lookup_path [publicKeyLabel] p.2 = .found (pkfun p) ∧ (pkfun p).length = 44) →
        (nodes.map fun p => toText p.1).Nodup →
        lookupNodeKeysFromCertificate toText certificate subnetId =
            .ok (nodes.map fun p => (toText p.1, pkfun p)) ∧
          ∀ q ∈ (nodes.map fun p => (toText p.1, pkfun p)), q.2.length = 44) ∧
      (∀ (sub : HashTree) (nodes : List (List Nat × HashTree)),
        lookup_subtree [subnetLabel, subnetId, nodeLabel] certificate.tree = .found sub →
        flatten_forks sub = (nodes.map fun p => HashTree.labeled p.1 p.2) →
        (∃ p ∈ nodes,
          (∀ v, lookup_path [publicKeyLabel] p.2 ≠ .found v) ∨
            (∃ v, lookup_path [publicKeyLabel] p.2 = .found v ∧ v.length ≠ 44)) →
        ∃ e, lookupNodeKeysFromCertificate toText certificate subnetId = .error e ∧
          e.kind = .protocol) := by
  refine ⟨?_, ?_, ?_⟩
  · intro hnf
    unfold lookupNodeKeysFromCertificate
    cases hs : lookup_subtree [subnetLabel, subnetId, nodeLabel] certificate.tree with
    | found t => exact absurd hs (hnf t)
    | absent => rfl
    | unknown => rfl
  · intro sub nodes pkfun hs hflat hpk hnodup
    constructor
    · have hfold := nodeKeysFold_ok toText nodes pkfun [] hpk hnodup
        (fun q _ r hr => absurd hr (List.not_mem_nil r))
      simp only [lookupNodeKeysFromCertificate, hs, hflat]
      simpa using hfold
    · intro q hq
      rcases List.mem_map.mp hq with ⟨p, hp, rfl⟩
      exact (hpk p hp).2
  · intro sub nodes hs hflat hbad
    have hfold := nodeKeysFold_protocol_error toText nodes [] hbad
    simpa only [lookupNodeKeysFromCertificate, hs, hflat] using hfold

/-- Witness for claim C9 on a concrete two-node subnet tree: the returned map
has one 44-byte entry per node, keyed by the text of the node principal. -/
theorem c9_lookup_node_keys_witness :
    lookupNodeKeysFromCertificate (fun l => Nat.repr (l.headD 0))
        ⟨.labeled subnetLabel (.labeled [1, 2, 3] (.labeled nodeLabel
          (.fork (.labeled [10] (.labeled publicKeyLabel (.leaf (List.replicate 44 1))))
            (.labeled [11] (.labeled publicKeyLabel (.leaf (List.replicate 44 2)))))))⟩
        [1, 2, 3] =
      .ok [("10", List.replicate 44 1), ("11", List.replicate 44 2)] := by
  have h := ((c9_lookup_node_keys (fun l => Nat.repr (l.headD 0))
      ⟨.labeled subnetLabel (.labeled [1, 2, 3] (.labeled nodeLabel
        (.fork (.labeled [10] (.labeled publicKeyLabel (.leaf (List.replicate 44 1))))
          (.labeled [11] (.labeled publicKeyLabel (.leaf (List.replicate 44 2)))))))⟩
      [1, 2, 3]).2.1
    (.fork (.labeled [10] (.labeled publicKeyLabel (.leaf (List.replicate 44 1))))
      (.labeled [11] (.labeled publicKeyLabel (.leaf (List.replicate 44 2)))))
    [([10], .labeled publicKeyLabel (.leaf (List.replicate 44 1))),
      ([11], .labeled publicKeyLabel (.leaf (List.replicate 44 2)))]
    (fun p => if p.1 = [10] then List.replicate 44 1 else List.replicate 44 2)
    (by decide) (by decide) (by decide) (by decide)).1
  simpa using h

/-! ## fetchSubnetKeys and canister-range containment (C5)

The HTTP agent's fetchSubnetKeys is absent from the snapshot.  Modelled from
spec §4.7/§4.4: the operation issues exactly one read-state request, builds a
Certificate for the canister principal — whose verification enforces that the
canister lies within the certificate's authorised ranges, failing with a
Trust error carrying CertificateNotAuthorized otherwise — and then extracts
the node-key map through lookupNodeKeysFromCertificate (readState.ts). -/

/-- Lexicographic order on raw principal bytes (spec §3: a subnet authorises
a target iff the target's raw bytes lie within one of its ranges under
lexicographic order; a strict prefix sorts first). -/
def lexLe : List Nat → List Nat → Bool
  | [], _ => true
  | _ :: _, [] => false
  | a :: as, b :: bs => if a < b then true else if b < a then false else lexLe as bs

/-- Containment of a principal in a list of inclusive canister ranges. -/
def inRanges (c : List Nat) (ranges : List (List Nat × List Nat)) : Bool :=
  ranges.any fun r => lexLe r.1 c && lexLe c r.2

/-- The information extracted from a verified read-state response that the
subnet-key fetch consumes: the authorised canister ranges, the certificate
tree and the signing subnet's principal. -/
structure SubnetCertData where
  ranges : List (List Nat × List Nat)
  tree : HashTree
  subnetId : List Nat

/-- Modelled from the spec: fetchSubnetKeys — one read-state request, range
containment enforced during certificate verification, then the node-key map.
The first component counts the read-state HTTP calls issued. -/
def fetchSubnetKeys (toText : List Nat → String) (canisterId : List Nat)
    (response : SubnetCertData) :
    Nat × Except AgentError (List (String × List Nat)) :=
  if inRanges canisterId response.ranges then
    (1, lookupNodeKeysFromCertificate toText ⟨response.tree⟩ response.subnetId)
  else
    (1, .error ⟨.trust, .certificateNotAuthorized⟩)

/-- Claim C5: fetchSubnetKeys always issues exactly one read-state call; when
the certificate's ranges do not contain the canister it fails with a Trust
error carrying CertificateNotAuthorized, and when the canister lies in a
range it returns the node-key map, with each node principal's text mapped to
that node's 44-byte DER public key. -/
theorem c5_fetch_subnet_keys (toText : List Nat → String) (canisterId : List Nat)
    (response : SubnetCertData) :
    (fetchSubnetKeys toText canisterId response).1 = 1 ∧
      (inRanges canisterId response.ranges = false →
        (fetchSubnetKeys toText canisterId response).2 =
          .error ⟨.trust, .certificateNotAuthorized⟩) ∧
      (∀ (sub : HashTree) (nodes : List (List Nat × HashTree))
          (pkfun : List Nat × HashTree → List Nat),
        inRanges canisterId response.ranges = true →
        lookup_subtree [subnetLabel, response.subnetId, nodeLabel] response.tree =
          .found sub →
        flatten_forks sub = (nodes.map fun p => HashTree.labeled p.1 p.2) →
        (∀ p ∈ nodes,
          lookup_path [publicKeyLabel] p.2 = .found (pkfun p) ∧ (pkfun p).length = 44) →
        (nodes.map fun p => toText p.1).Nodup →
        (fetchSubnetKeys toText canisterId response).2 =
          .ok (nodes.map fun p => (toText p.1, pkfun p))) := by
  refine ⟨?_, ?_, ?_⟩
  · unfold fetchSubnetKeys
    split_ifs <;> rfl
  · intro hout
    simp [fetchSubnetKeys, hout]
  · intro sub nodes pkfun hin hs hflat hpk hnodup
    have hfold := nodeKeysFold_ok toText nodes pkfun [] hpk hnodup
      (fun q _ r hr => absurd hr (List.not_mem_nil r))
    simp only [fetchSubnetKeys, hin, if_true, lookupNodeKeysFromCertificate, hs, hflat]
    simpa using hfold

/-- Witness for claim C5 at the data of scenario S4: ranges cover only the
principal v2nog-2aaaa-aaaab-p777q-cai (raw bytes below), and the queried
canister jrlun-jiaaa-aaaab-aaaaa-cai lies outside them, so the fetch fails
with CertificateNotAuthorized after its single read-state call. -/
theorem c5_fetch_subnet_keys_witness :
    fetchSubnetKeys (fun l => Nat.repr (l.headD 0)) [0, 0, 0, 0, 0, 32, 0, 0, 1, 1]
        ⟨[([0, 0, 0, 0, 0, 47, 255, 255, 1, 1], [0, 0, 0, 0, 0, 47, 255, 255, 1, 1])],
          .empty, [1, 2, 3]⟩ =
      (1, .error ⟨.trust, .certificateNotAuthorized⟩) := by
  have h := c5_fetch_subnet_keys (fun l => Nat.repr (l.headD 0))
    [0, 0, 0, 0, 0, 32, 0, 0, 1, 1]
    ⟨[([0, 0, 0, 0, 0, 47, 255, 255, 1, 1], [0, 0, 0, 0, 0, 47, 255, 255, 1, 1])],
      .empty, [1, 2, 3]⟩
  have h2 := h.2.1 (by decide)
  have h1 := h.1
  rw [Prod.ext_iff]
  exact ⟨h1, h2⟩

/-! ## canisterStatus request (C10)

Translated from canisterStatus/index.ts (present in the snapshot): the
request deduplicates the requested paths, runs one read-state, certificate
verification, lookup and decode per path inside a try/catch, stores `null`
for a path whose body throws a non-certificate error or yields no data, and
rethrows — failing the whole request — exactly the errors carrying the
CertificateVerification or CertificateTime code. -/

/-- The pre-configured canister status paths of canisterStatus/index.ts plus
custom paths (identified by their key; `tag` distinguishes custom path
objects that share a key). -/
inductive CsPath
  | time
  | controllers
  | subnet
  | moduleHash
  | candid
  | custom (key : String) (tag : Nat)
deriving DecidableEq

/-- The key under which a path's result is stored in the status map (the
path name for string paths, `path.key` for custom paths). -/
def pathKey : CsPath → String
  | .time => "time"
  | .controllers => "controllers"
  | .subnet => "subnet"
  | .moduleHash => "module_hash"
  | .candid => "candid"
  | .custom k _ => k

/-- Outcome of the per-path body of the request (read-state, certificate
creation, lookup and decode), abstracted as an oracle: decoded data, no data
from the lookup, or a throw (an agent error, or `none` for a non-agent
exception). -/
inductive PathOutcome
  | success (v : List Nat)
  | noData
  | failure (e : Option AgentError)

/-- The codes rethrown by the catch clause of canisterStatus/index.ts
(CertificateVerificationErrorCode and CertificateTimeErrorCode). -/
def isCertRethrow : ErrorCode → Bool
  | .certificateVerification => true
  | .certificateTime => true
  | _ => false

/-- One iteration of the per-path loop of canisterStatus request: store the
decoded value, store null for missing data, rethrow certificate errors, and
store null for every other throw. -/
def processPath (env : CsPath → PathOutcome) (m : List (String × Option (List Nat)))
    (p : CsPath) : Except AgentError (List (String × Option (List Nat))) :=
  match env p with
  | .success v => .ok (mapSet m (pathKey p) (some v))
  | .noData => .ok (mapSet m (pathKey p) none)
  | .failure (some e) =>
    if isCertRethrow e.code then .error e else .ok (mapSet m (pathKey p) none)
  | .failure none => .ok (mapSet m (pathKey p) none)

/-- First-occurrence deduplication, as `new Set(paths)` performs in the
source. -/
def dedupFirstAux {α : Type} [DecidableEq α] (seen : List α) : List α → List α
  | [] => []
  | p :: rest =>
    if p ∈ seen then dedupFirstAux seen rest
    else p :: dedupFirstAux (p :: seen) rest

/-- The deduplicated request paths (`uniquePaths` in the source). -/
def uniquePaths (paths : List CsPath) : List CsPath :=
  dedupFirstAux [] paths

/-- The per-path loop over the deduplicated paths, threading the status map
and stopping at the first rethrown error (the rejection of Promise.all). -/
def requestStatusFold (env : CsPath → PathOutcome)
    (m : List (String × Option (List Nat))) :
    List CsPath → Except AgentError (List (String × Option (List Nat)))
  | [] => .ok m
  | p :: rest =>
    match processPath env m p with
    | .ok m2 => requestStatusFold env m2 rest
    | .error e => .error e

/-- The canisterStatus request of canisterStatus/index.ts over the per-path
oracle `env`. -/
def canisterStatusRequest (paths : List CsPath) (env : CsPath → PathOutcome) :
    Except AgentError (List (String × Option (List Nat))) :=
  requestStatusFold env [] (uniquePaths paths)

/-- The map entry produced for a path whose body does not rethrow: the
decoded value on success, null otherwise. -/
def expectedEntry (env : CsPath → PathOutcome) (p : CsPath) : Option (List Nat) :=
  match env p with
  | .success v => some v
  | _ => none

/-- A rethrowing path: its body throws an agent error carrying one of the two
certificate codes. -/
def rethrows (env : CsPath → PathOutcome) (p : CsPath) : Prop :=
  ∃ e, env p = .failure (some e) ∧ isCertRethrow e.code = true

/-- The per-path body can only return an error when the path rethrows. -/
theorem processPath_error_rethrows (env : CsPath → PathOutcome)
    (m : List (String × Option (List Nat))) (p : CsPath) (e : AgentError)
    (h : processPath env m p = .error e) :
    env p = .failure (some e) ∧ isCertRethrow e.code = true := by
  cases henv : env p with
  | success v => simp [processPath, henv] at h
  | noData => simp [processPath, henv] at h
  | failure eo =>
    cases eo with
    | none => simp [processPath, henv] at h
    | some e2 =>
      by_cases hc : isCertRethrow e2.code = true
      · simp [processPath, henv, hc] at h
        subst h
        exact ⟨rfl, hc⟩
      · simp [processPath, henv, hc] at h
  

/-- Generic absent-key lookup: a key none of the entries carry is undefined. -/
theorem mapGet_eq_none {α : Type} (m : List (String × α)) (k : String)
    (h : ∀ q ∈ m, q.1 ≠ k) : mapGet m k = none := by
  unfold mapGet
  rw [List.find?_eq_none.mpr]
  · rfl
  · intro q hq
    simpa using h q hq

/-- Lookup of a requested path's key in the entry list built from the
deduplicated paths. -/
theorem mapGet_entries (env : CsPath → PathOutcome) (ps : List CsPath) (p : CsPath)
    (hp : p ∈ ps) (hnodup : (ps.map pathKey).Nodup) :
    mapGet (ps.map fun q => (pathKey q, expectedEntry env q)) (pathKey p) =
      some (expectedEntry env p) := by
  induction ps with
  | nil => cases hp
  | cons a rest ih =>
    rw [List.map_cons, List.nodup_cons] at hnodup
    rcases List.mem_cons.mp hp with rfl | hp2
    · simp [mapGet, List.find?_cons_of_pos]
    · have hne : pathKey a ≠ pathKey p := by
        intro hcontra
        exact hnodup.1 (hcontra ▸ List.mem_map_of_mem pathKey hp2)
      have := ih hp2 hnodup.2
      simpa [mapGet, List.find?_cons_of_neg, hne] using this

/-- The per-path loop over non-rethrowing paths with distinct fresh keys
appends one entry per path: the value for a successful path, null for a
failed or data-less one. -/
theorem requestStatusFold_ok (env : CsPath → PathOutcome) (ps : List CsPath) :
    ∀ m : List (String × Option (List Nat)),
      (∀ p ∈ ps, ¬ rethrows env p) →
      (ps.map pathKey).Nodup →
      (∀ p ∈ ps, ∀ q ∈ m, q.1 ≠ pathKey p) →
      requestStatusFold env m ps =
        .ok (m ++ ps.map fun p => (pathKey p, expectedEntry env p)) := by
  induction ps with
  | nil =>
    intro m _ _ _
    simp [requestStatusFold]
  | cons p rest ih =>
    intro m hnr hnodup hfresh
    have hstep : processPath env m p = .ok (mapSet m (pathKey p) (expectedEntry env p)) := by
      cases henv : env p with
      | success v => simp [processPath, henv, expectedEntry]
      | noData => simp [processPath, henv, expectedEntry]
      | failure eo =>
        cases eo with
        | none => simp [processPath, henv, expectedEntry]
        | some e =>
          have hc : isCertRethrow e.code = false := by
            by_contra hcontra
            exact hnr p (List.mem_cons_self p rest)
              ⟨e, henv, by simpa using hcontra⟩
          simp [processPath, henv, expectedEntry, hc]
    have hset : mapSet m (pathKey p) (expectedEntry env p) =
        m ++ [(pathKey p, expectedEntry env p)] :=
      mapSet_of_fresh m (pathKey p) (expectedEntry env p)
        (fun q hq => hfresh p (List.mem_cons_self p rest) q hq)
    rw [List.map_cons, List.nodup_cons] at hnodup
    have hfresh2 : ∀ a ∈ rest, ∀ q ∈ m ++ [(pathKey p, expectedEntry env p)],
        q.1 ≠ pathKey a := by
      intro a ha q hq
      rcases List.mem_append.mp hq with hq | hq
      · exact hfresh a (List.mem_cons_of_mem p ha) q hq
      · have hq2 : q = (pathKey p, expectedEntry env p) := by simpa using hq
        rw [hq2]
        intro hcontra
        apply hnodup.1
        have hcontra2 : pathKey p = pathKey a := hcontra
        rw [hcontra2]
        exact List.mem_map_of_mem pathKey ha
    have hrest := ih (m ++ [(pathKey p, expectedEntry env p)])
      (fun a ha => hnr a (List.mem_cons_of_mem p ha)) hnodup.2 hfresh2
    simp only [List.map_cons, requestStatusFold, hstep, hset, hrest]
    simp

/-- If some path rethrows, the loop rejects with a certificate error. -/
theorem requestStatusFold_error (env : CsPath → PathOutcome) (ps : List CsPath) :
    ∀ m : List (String × Option (List Nat)),
      (∃ p ∈ ps, rethrows env p) →
      ∃ e, requestStatusFold env m ps = .error e ∧ isCertRethrow e.code = true := by
  induction ps with
  | nil =>
    intro m hbad
    simp at hbad
  | cons p rest ih =>
    intro m hbad
    cases hstep : processPath env m p with
    | ok m2 =>
      rcases hbad with ⟨q, hq, hbadq⟩
      rcases List.mem_cons.mp hq with rfl | hq2
      · exfalso
        rcases hbadq with ⟨e, henv, hc⟩
        simp [processPath, henv, hc] at hstep
      · have hres := ih m2 ⟨q, hq2, hbadq⟩
        rcases hres with ⟨e, he, hc⟩
        refine ⟨e, ?_, hc⟩
        simp only [requestStatusFold, hstep]
        exact he
    | error e =>
      have := processPath_error_rethrows env m p e hstep
      refine ⟨e, ?_, this.2⟩
      simp only [requestStatusFold, hstep]

/-- Claim C10: the canisterStatus request resolves with a status map rather
than rejecting on a per-path failure — every deduplicated path whose
read-state lookup or decoding fails (or yields no data) is entered with
value null and every successful path with its value, while keys never
requested are absent — except that an error carrying the
CertificateVerification or CertificateTime code is rethrown and fails the
whole request. -/
theorem c10_canister_status_per_path (paths : List CsPath)
    (env : CsPath → PathOutcome) :
    ((∀ p ∈ uniquePaths paths, ¬ rethrows env p) →
      ((uniquePaths paths).map pathKey).Nodup →
      ∃ m, canisterStatusRequest paths env = .ok m ∧
        (∀ p ∈ uniquePaths paths, mapGet m (pathKey p) = some (expectedEntry env p)) ∧
        (∀ k : String, (∀ p ∈ uniquePaths paths, pathKey p ≠ k) → mapGet m k = none)) ∧
      ((∃ p ∈ uniquePaths paths, rethrows env p) →
        ∃ e, canisterStatusRequest paths env = .error e ∧
          isCertRethrow e.code = true) := by
  constructor
  · intro hnr hnodup
    have hfold := requestStatusFold_ok env (uniquePaths paths) [] hnr hnodup
      (fun p _ q hq => absurd hq (List.not_mem_nil q))
    refine ⟨(uniquePaths paths).map fun p => (pathKey p, expectedEntry env p), ?_, ?_, ?_⟩
    · simpa [canisterStatusRequest] using hfold
    · intro p hp
      exact mapGet_entries env (uniquePaths paths) p hp hnodup
    · intro k hk
      refine mapGet_eq_none _ k ?_
      intro q hq
      rcases List.mem_map.mp hq with ⟨p, hp, rfl⟩
      exact hk p hp
  · intro hbad
    exact requestStatusFold_error env (uniquePaths paths) [] hbad

/-- Witness for claim C10 at the data of the multi-request test with a
failure: paths time and the custom path with key asdf, where time decodes to
a value and the custom lookup fails with a non-certificate error — the map
holds the time value, null under asdf, and no entry under test123. -/
theorem c10_canister_status_per_path_witness :
    ∃ m, canisterStatusRequest [CsPath.time, CsPath.custom "asdf" 0]
        (fun p =>
          match p with
          | CsPath.time => .success [7]
          | _ => .failure (some ⟨.protocol, .lookupFailure⟩)) = .ok m ∧
      mapGet m "time" = some (some [7]) ∧
      mapGet m "asdf" = some none ∧
      mapGet m "test123" = none := by
  have h := (c10_canister_status_per_path [CsPath.time, CsPath.custom "asdf" 0]
      (fun p =>
        match p with
        | CsPath.time => .success [7]
        | _ => .failure (some ⟨.protocol, .lookupFailure⟩))).1
    (by
      intro p hp
      rintro ⟨e, he, hc⟩
      have hp2 : p = CsPath.time ∨ p = CsPath.custom "asdf" 0 := by
        simpa [uniquePaths, dedupFirstAux] using hp
      rcases hp2 with rfl | rfl
      · simp at he
      · simp at he
        subst he
        simp [isCertRethrow] at hc)
    (by decide)
  rcases h with ⟨m, hm, hentries, habsent⟩
  refine ⟨m, hm, ?_, ?_, ?_⟩
  · have := hentries CsPath.time (by decide)
    simpa [pathKey, expectedEntry] using this
  · have := hentries (CsPath.custom "asdf" 0) (by decide)
    simpa [pathKey, expectedEntry] using this
  · refine habsent "test123" ?_
    decide
